import Mathlib

/-!
Shallow embedding of the video-player core of this repository (the DASH
player component): the subtitle time codec, the subtitle synchronizer,
the quality reconciler, and the player/blob-resource lifecycle, together
with theorems settling the specification claims about them.

Conventions of the embedding:
* JavaScript numbers are modelled as `Option ℚ`, with `none` playing the
  role of `NaN`; every comparison with `NaN` is false, and `NaN`
  propagates through arithmetic, exactly as in the source language.
* `Number(s)` on the strings that occur here (decimal digit strings and
  garbage) is modelled by `jsNumber`: the empty string converts to `0`,
  a digit string to its value, anything else to `NaN` (`none`).
* React state setters are modelled as immediate field updates on an
  explicit state record; mutable refs (the engine handle, the previous
  blob URL, the hide-controls timer) are fields of a `World` record.
* The adaptive-streaming engine is external: its representation list,
  its current representation and whether a representation switch throws
  are inputs of the model.
* Effects observable by the host (error callbacks, `attachSource`,
  `video.play()` calls, console warnings, object-URL creation and
  revocation) are recorded in output fields of `World`.
-/

namespace VideoPlayer

/-- Splitting of a character list at every occurrence of a separator
character, keeping empty pieces, as `String.prototype.split` does. -/
def splitOnChar (sep : Char) : List Char → List (List Char)
  | [] => [[]]
  | c :: rest =>
      let r := splitOnChar sep rest
      if c = sep then [] :: r
      else
        match r with
        | [] => [[c]]
        | g :: gs => (c :: g) :: gs

/-- Model of `String.prototype.split` with a one-character separator. -/
def jsSplit (sep : Char) (s : String) : List String :=
  (splitOnChar sep s.data).map (fun cs => String.mk cs)

/-- Value of a decimal digit character, `none` for any other character. -/
def digitVal (c : Char) : Option Nat :=
  if '0' ≤ c ∧ c ≤ '9' then some (c.toNat - '0'.toNat) else none

/-- Accumulating decimal parse of a character list: the value of an
all-digit list, `none` as soon as a non-digit occurs. -/
def jsDigitsAux (acc : Nat) : List Char → Option Nat
  | [] => some acc
  | c :: rest =>
      match digitVal c with
      | some d => jsDigitsAux (acc * 10 + d) rest
      | none => none

/-- Model of the JavaScript `Number(s)` conversion on the strings relevant
to this component: `""` converts to `0`, a string of decimal digits to its
value, and everything else to `NaN` (represented by `none`). -/
def jsNumber (s : String) : Option ℚ :=
  if s = "" then some 0
  else (jsDigitsAux 0 s.data).map (fun n => (n : ℚ))

/-- Component access used by `parseTimeToSeconds`: `Number` applied to the
i-th piece of the split timestamp; a missing piece is `undefined` and
`Number(undefined)` is `NaN`. -/
def numAt (parts : List String) (i : Nat) : Option ℚ :=
  match parts.get? i with
  | none => none
  | some s => jsNumber s

/-- Millisecond segment of the timestamp: the source computes
`Number(milliseconds || 0)`, so an absent (`undefined`) or empty segment
defaults to `0`, and any other string goes through `Number`. -/
def msNumber : Option String → Option ℚ
  | none => some 0
  | some s => if s = "" then some 0 else jsNumber s

/-- Arithmetic core of `parseTimeToSeconds`: given the `":"`-split pieces
of the time part and the optional millisecond segment, compute
`hours*3600 + minutes*60 + seconds + ms/1000`, propagating `NaN`. -/
def computeSeconds (tparts : List String) (msPart : Option String) : Option ℚ :=
  match numAt tparts 0, numAt tparts 1, numAt tparts 2, msNumber msPart with
  | some hours, some minutes, some seconds, some ms =>
      some (hours * 3600 + minutes * 60 + seconds + ms / 1000)
  | _, _, _, _ => none

/-- Embedding of `parseTimeToSeconds` from the source: split on `","` into
time part and millisecond segment, split the time part on `":"` and
combine.  `none` is the `NaN` result. -/
def parseTimeToSeconds (timeString : String) : Option ℚ :=
  let parts := jsSplit ',' timeString
  computeSeconds (jsSplit ':' (parts.headD "")) (parts.get? 1)

/-- Raw subtitle line as delivered to the component.  The source field
`end` is a reserved word in Lean and is named `stop` here. -/
structure Subtitle where
  seq : Int
  text : String
  start : String
  stop : String
  deriving DecidableEq

/-- Subtitle line after the `processedSubtitles` memo: the raw fields plus
the two timestamps pushed through the time codec. -/
structure ProcessedSubtitle where
  seq : Int
  text : String
  start : String
  stop : String
  startTime : Option ℚ
  endTime : Option ℚ
  deriving DecidableEq

/-- Embedding of the `processedSubtitles` memo: map the codec over the raw
list. -/
def processSubtitles (subs : List Subtitle) : List ProcessedSubtitle :=
  subs.map fun sub =>
    ⟨sub.seq, sub.text, sub.start, sub.stop,
      parseTimeToSeconds sub.start, parseTimeToSeconds sub.stop⟩

/-- Predicate of the `find` call in the subtitle effect:
`currentTime >= sub.startTime && currentTime <= sub.endTime`, with the
JavaScript rule that every comparison against `NaN` is false. -/
def subtitleMatches (t : ℚ) (sub : ProcessedSubtitle) : Bool :=
  (match sub.startTime with
   | some a => decide (a ≤ t)
   | none => false) &&
  (match sub.endTime with
   | some b => decide (t ≤ b)
   | none => false)

/-- Embedding of the subtitle-selection effect: empty list short-circuits
to the empty string, otherwise the first matching line's text (with the
`|| ''` fallback collapsing an absent match to the empty string). -/
def currentSubtitleFor (t : ℚ) (subs : List ProcessedSubtitle) : String :=
  if subs.length = 0 then ""
  else
    match subs.find? (fun sub => subtitleMatches t sub) with
    | some sub => sub.text
    | none => ""

/-- Containment notion of the specification: the line has numeric
endpoints and the time lies in the closed interval between them. -/
def lineContains (t : ℚ) (sub : ProcessedSubtitle) : Prop :=
  ∃ a b, sub.startTime = some a ∧ sub.endTime = some b ∧ a ≤ t ∧ t ≤ b

/-- Format item of the manifest response (`FormatItem` in the source);
`display_desc` and `codecs` are optional fields. -/
structure FormatItem where
  id : Int
  new_description : String
  display_desc : Option String := none
  codecs : Option String := none
  deriving DecidableEq

/-- Quality entry of the selectable list, as constructed by the
stream-initialized handler (fields `index/label/id/needLogin`). -/
structure Quality where
  index : Int
  label : String
  id : Int
  needLogin : Bool
  deriving DecidableEq

/-- Engine-owned representation: the engine reports a string id (compared
via `Number`) and its own index field. -/
structure Representation where
  id : String
  index : Int := 0
  deriving DecidableEq

/-- Truthiness of an optional string (`undefined` and `""` are falsy). -/
def truthyStr : Option String → Bool
  | none => false
  | some s => s != ""

/-- Model of `Array.prototype.findIndex`: index of the first element
satisfying the predicate, `-1` if there is none. -/
def jsFindIndex {α : Type} (p : α → Bool) : List α → Int
  | [] => -1
  | x :: xs =>
      if p x then 0
      else
        let r := jsFindIndex p xs
        if r = -1 then -1 else r + 1

/-- Per-item body of the `forEach` in the STREAM_INITIALIZED handler: an
item with truthy `id` and truthy `codecs` is matched against the engine's
video representations by numeric id and, when found, contributes an entry
with the representation's positional index; otherwise, for an
unauthenticated viewer and `id < 112`, it contributes a login-gated entry
with the raw id as index. -/
def qualityContribution (isLoggedIn : Bool) (videoReps : List Representation)
    (item : FormatItem) : List Quality :=
  if item.id ≠ 0 ∧ truthyStr item.codecs = true then
    let repIndex := jsFindIndex
      (fun rep => decide (jsNumber rep.id = some (item.id : ℚ))) videoReps
    if repIndex ≠ -1 then
      [⟨repIndex, item.new_description, item.id, false⟩]
    else []
  else if isLoggedIn = false ∧ item.id < 112 then
    [⟨item.id, item.new_description, item.id, true⟩]
  else []

/-- The full `newQualities` array built by the STREAM_INITIALIZED handler:
the item contributions pushed in list order. -/
def buildQualities (isLoggedIn : Bool) (videoReps : List Representation) :
    List FormatItem → List Quality
  | [] => []
  | item :: rest =>
      qualityContribution isLoggedIn videoReps item ++
        buildQualities isLoggedIn videoReps rest

/-- Model of the `<video>` element state touched by the component. -/
structure VideoElem where
  muted : Bool := false
  volume : ℚ := 7/10
  playRejects : Bool := false
  deriving DecidableEq

/-- Model of the dash.js engine instance as the component observes it:
the auto-bitrate settings it writes, the representation data the engine
reports, and whether an explicit representation switch throws (an input
describing the external engine's behaviour). -/
structure Engine where
  autoSwitchVideo : Bool := true
  autoSwitchAudio : Bool := true
  videoReps : List Representation := []
  currentRep : Option Representation := none
  throwsOnSwitch : Bool := false
  deriving DecidableEq

/-- React state of the component (the `useState` cells the modelled
operations read or write). -/
structure PlayerState where
  isPlaying : Bool := false
  volume : ℚ := 7/10
  isMuted : Bool := false
  availableQualities : List Quality := []
  currentQualityIndex : Int := -1
  currentQuality : String := "自动"
  currentAutoQuality : String := ""
  isLoggedIn : Bool := false
  switchMessage : String := ""
  deriving DecidableEq

/-- Whole-component state: refs, engine handle, blob-URL accounting and
the outputs observable by the host.  `liveBlobs` lists the object URLs
created and not yet revoked; `prevBlobRef` is the `previousBlobUrl` ref;
`errors` records `onError` invocations; `attached` records
`attachSource` calls; `initializedWith` records the source passed to
`player.initialize`; `playCalls` and `warnCount` record resume attempts
and logged warnings. -/
structure World where
  videoElem : Option VideoElem := none
  player : Option Engine := none
  formatListRef : List FormatItem := []
  hideControlsTimer : Option Nat := none
  prevBlobRef : Option String := none
  nextBlobId : Nat := 0
  liveBlobs : List String := []
  optionsSrc : String := ""
  state : PlayerState := {}
  errors : List String := []
  attached : List String := []
  initializedWith : List String := []
  loadedCount : Nat := 0
  playCalls : Nat := 0
  warnCount : Nat := 0
  deriving DecidableEq

/-- Embedding of `revokePreviousBlobUrl`: if the ref holds a URL, revoke
it (remove it from the live set) and clear the ref; otherwise do
nothing. -/
def revokePreviousBlobUrl (w : World) : World :=
  match w.prevBlobRef with
  | some u => { w with liveBlobs := w.liveBlobs.erase u, prevBlobRef := none }
  | none => w

/-- Embedding of `destroyPlayer`: reset and drop the engine handle if
present, clear the hide-controls timer, release the previous blob URL. -/
def destroyPlayer (w : World) : World :=
  let w1 :=
    match w.player with
    | some _ => { w with player := none }
    | none => w
  let w2 := { w1 with hideControlsTimer := none }
  revokePreviousBlobUrl w2

/-- Source descriptor handed to `updateSrc` (the `Source` interface). -/
structure Source where
  src : String
  type : String := "application/dash+xml"
  deriving DecidableEq

/-- Manifest-proxy response body consumed by `refetchManifest`: the
unified MPD document string and the format list. -/
structure ManifestData where
  unifiedMpd : String
  formatList : List FormatItem := []
  deriving DecidableEq

/-- Embedding of `initPlayer`.  A missing render element reports an error
and returns; otherwise any existing instance is destroyed first, a fresh
engine (supplied by the environment as `fresh`) is created with auto
bitrate switching enabled for video and audio, `initialize` is called
with the current `options.src`, and `onLoaded` fires (counted by
`loadedCount`).  Event-handler registration itself changes no state; the
handlers are modelled as the separate functions below. -/
def initPlayer (fresh : Engine) (w : World) : World :=
  match w.videoElem with
  | none => { w with errors := w.errors ++ ["视频元素未初始化"] }
  | some _ =>
      let w1 := if w.player.isSome then destroyPlayer w else w
      let w2 := { w1 with
        player := some { fresh with autoSwitchVideo := true, autoSwitchAudio := true } }
      { w2 with
        initializedWith := w2.initializedWith ++ [w2.optionsSrc],
        loadedCount := w2.loadedCount + 1 }

/-- Embedding of `updateSrc`: lazily initialize the player if absent;
report an error if it still is; report an error on an empty source URI;
otherwise revoke the previous blob URL and attach the new source. -/
def updateSrc (fresh : Engine) (newSource : Source) (w : World) : World :=
  let w1 := if w.player.isNone then initPlayer fresh w else w
  match w1.player with
  | none => { w1 with errors := w1.errors ++ ["播放器未初始化"] }
  | some _ =>
      if newSource.src = "" then
        { w1 with errors := w1.errors ++ ["视频源地址不能为空"] }
      else
        let w2 := revokePreviousBlobUrl w1
        { w2 with attached := w2.attached ++ [newSource.src] }

/-- Embedding of the success continuation of `refetchManifest`: store the
format list, create a fresh object URL for the manifest blob (the URL is
identified by the creation counter) and set it as the new `options`
source.  Nothing is written to the `previousBlobUrl` ref. -/
def refetchSuccess (data : ManifestData) (w : World) : World :=
  let blobUrl := "blob:" ++ toString w.nextBlobId
  { w with
    formatListRef := data.formatList,
    nextBlobId := w.nextBlobId + 1,
    liveBlobs := w.liveBlobs ++ [blobUrl],
    optionsSrc := blobUrl }

/-- Embedding of the `useEffect` on `options`: a truthy source triggers
`updateSrc(options)`. -/
def optionsEffect (fresh : Engine) (w : World) : World :=
  if w.optionsSrc ≠ "" then
    updateSrc fresh ⟨w.optionsSrc, "application/dash+xml"⟩ w
  else w

/-- One complete source update: a manifest fetch completion followed by
the options effect that feeds the new descriptor to the engine. -/
def sourceUpdate (fresh : Engine) (data : ManifestData) (w : World) : World :=
  optionsEffect fresh (refetchSuccess data w)

/-- Embedding of `updateQualityList`, parameterised by the value of
`currentQualityIndex` that the executing closure observes (React closures
capture the render-scope value).  Guards: a missing engine handle, a
non-automatic index and an empty video-representation list all return the
state unchanged; a missing current representation resets the labels;
otherwise the first format item matching the representation's numeric id
is looked up and, when it carries a truthy `display_desc`, that string
becomes the auto sub-label. -/
def updateQualityListWith (idx : Int) (w : World) : World :=
  match w.player with
  | none => w
  | some eng =>
      if idx ≠ -1 then w
      else if eng.videoReps.length = 0 then w
      else
        match eng.currentRep with
        | none =>
            { w with state :=
              { w.state with currentQuality := "自动", currentAutoQuality := "" } }
        | some currentRepresentation =>
            match w.formatListRef.find?
                (fun quality =>
                  decide (jsNumber currentRepresentation.id = some (quality.id : ℚ))) with
            | some matchingQuality =>
                let formatItem := w.formatListRef.find?
                  (fun item => decide (item.id = matchingQuality.id))
                let autoDesc := formatItem.bind (fun fi => fi.display_desc)
                let w1 :=
                  match autoDesc with
                  | some d =>
                      if d = "" then w
                      else { w with state := { w.state with currentAutoQuality := d } }
                  | none => w
                { w1 with state := { w1.state with currentQuality := "自动" } }
            | none =>
                { w with state :=
                  { w.state with currentQuality := "自动", currentAutoQuality := "" } }

/-- The `updateQualityList` call as it runs in the event handlers, where
the observed `currentQualityIndex` is the state value. -/
def updateQualityList (w : World) : World :=
  updateQualityListWith w.state.currentQualityIndex w

/-- Embedding of the STREAM_INITIALIZED handler: rebuild the selectable
quality list from the engine's video representations and the format list,
then recompute the automatic label. -/
def streamInitializedHandler (w : World) : World :=
  let videoReps :=
    match w.player with
    | some eng => eng.videoReps
    | none => []
  let newQualities := buildQualities w.state.isLoggedIn videoReps w.formatListRef
  updateQualityList
    { w with state := { w.state with availableQualities := newQualities } }

/-- Embedding of the resume block at the end of `changeQuality`:
`if (wasPlaying && videoPlayerRef.current) play().catch(warn)`.  A play
call is recorded; a rejected play only logs a warning. -/
def resumeIfWasPlaying (wasPlaying : Bool) (w : World) : World :=
  if wasPlaying then
    match w.videoElem with
    | some el =>
        if el.playRejects then
          { w with playCalls := w.playCalls + 1, warnCount := w.warnCount + 1 }
        else
          { w with playCalls := w.playCalls + 1 }
    | none => w
  else w

/-- Embedding of `changeQuality`.  With no engine or an empty quality
list it does nothing.  Index `-1` re-enables auto switching, reverts the
labels and recomputes the auto label (the recompute's guard observes the
render-scope `currentQualityIndex`, i.e. the pre-call value).  An explicit
index looks up the target quality (silently returning when absent,
skipping the resume block), shows the transient switch message, disables
auto switching and requests the representation switch; if the engine
throws, the catch block re-enables auto switching, reverts to automatic
and clears the message.  Afterwards playback is resumed when it was
active on entry. -/
def changeQuality (index : Int) (w : World) : World :=
  match w.player with
  | none => w
  | some eng =>
      if w.state.availableQualities.length = 0 then w
      else
        let wasPlaying := w.state.isPlaying
        if index = -1 then
          let wa := { w with player := some { eng with autoSwitchVideo := true } }
          let wb := { wa with state :=
            { wa.state with currentQualityIndex := -1, currentQuality := "自动" } }
          resumeIfWasPlaying wasPlaying
            (updateQualityListWith w.state.currentQualityIndex wb)
        else
          match w.state.availableQualities.find?
              (fun q => decide (q.index = index)) with
          | none => w
          | some targetQuality =>
              let wmsg := { w with state := { w.state with
                switchMessage := "正在切换到 " ++ targetQuality.label ++ ", 请稍等..." } }
              if eng.throwsOnSwitch then
                let wt := { wmsg with player := some { eng with autoSwitchVideo := false } }
                resumeIfWasPlaying wasPlaying
                  { wt with
                    player := some { eng with autoSwitchVideo := true },
                    state := { wt.state with
                      currentQualityIndex := -1,
                      currentQuality := "自动",
                      switchMessage := "" } }
              else
                let wt := { wmsg with player := some { eng with autoSwitchVideo := false } }
                resumeIfWasPlaying wasPlaying
                  { wt with state := { wt.state with
                    currentQualityIndex := index,
                    currentQuality := targetQuality.label,
                    currentAutoQuality := "" } }

/-- Firing of the `setTimeout` scheduled by `setSwitchMessage`: the timer
callback blanks the transient message. -/
def fireSwitchMessageClear (w : World) : World :=
  { w with state := { w.state with switchMessage := "" } }

/-- Embedding of `toggleMute`: without a video element nothing happens;
when muted, unmute and, if the stored volume is `0`, restore it to `0.5`
on both the state and the element; when unmuted, mute the element without
touching the stored volume. -/
def toggleMute (w : World) : World :=
  match w.videoElem with
  | none => w
  | some el =>
      if w.state.isMuted then
        let w1 := { w with
          videoElem := some { el with muted := false },
          state := { w.state with isMuted := false } }
        if w.state.volume = 0 then
          { w1 with
            state := { w1.state with volume := 1/2 },
            videoElem := some { el with muted := false, volume := 1/2 } }
        else w1
      else
        { w with
          videoElem := some { el with muted := true },
          state := { w.state with isMuted := true } }

/-- Unfolding of `parseTimeToSeconds` into its split-and-compute shape. -/
lemma parseTimeToSeconds_unfolded (s : String) :
    parseTimeToSeconds s =
      computeSeconds (jsSplit ':' ((jsSplit ',' s).headD ""))
        ((jsSplit ',' s).get? 1) := rfl

/-- Arithmetic of the codec once all four segments convert to numbers. -/
lemma computeSeconds_formula (tparts : List String) (msPart : Option String)
    (h m s mv : ℚ) (h0 : numAt tparts 0 = some h) (h1 : numAt tparts 1 = some m)
    (h2 : numAt tparts 2 = some s) (h3 : msNumber msPart = some mv) :
    computeSeconds tparts msPart = some (h * 3600 + m * 60 + s + mv / 1000) := by
  unfold computeSeconds
  rw [h0, h1, h2, h3]

/-- A non-empty, non-numeric millisecond segment poisons the whole
conversion (`NaN`), whatever the time part is. -/
lemma computeSeconds_nan_ms (tparts : List String) (bad : String)
    (hne : bad ≠ "") (hbad : jsNumber bad = none) :
    computeSeconds tparts (some bad) = none := by
  have hms : msNumber (some bad) = none := by simp [msNumber, hne, hbad]
  unfold computeSeconds
  rw [hms]
  rcases numAt tparts 0 with _ | h <;> rcases numAt tparts 1 with _ | m <;>
    rcases numAt tparts 2 with _ | s <;> rfl

/-- C6, counterexample.  The claim says an invalid millisecond segment
defaults to 0, which would make `parse("00:01:05,x")` evaluate to 65; the
code instead produces `NaN` (`Number("x")` is `NaN` and propagates). -/
theorem parseTime_invalid_ms_counterexample :
    parseTimeToSeconds "00:01:05,x" = none ∧
      parseTimeToSeconds "00:01:05,x" ≠ some 65 := by
  constructor
  · decide
  · decide

/-- C6, amended.  The codec converts `HH:MM:SS,mmm` to
`hours*3600 + minutes*60 + seconds + ms/1000` (so
`parse("00:01:05,500") = 65.5`), and a missing millisecond segment
defaults to 0; but a non-empty, non-numeric millisecond segment yields
`NaN` (no value) rather than defaulting to 0. -/
theorem parseTime_formula :
    (∀ s : String,
      parseTimeToSeconds s =
        computeSeconds (jsSplit ':' ((jsSplit ',' s).headD ""))
          ((jsSplit ',' s).get? 1))
    ∧ (∀ (tparts : List String) (msPart : Option String) (h m s mv : ℚ),
        numAt tparts 0 = some h → numAt tparts 1 = some m →
        numAt tparts 2 = some s → msNumber msPart = some mv →
        computeSeconds tparts msPart = some (h * 3600 + m * 60 + s + mv / 1000))
    ∧ msNumber none = some 0
    ∧ (∀ (tparts : List String) (bad : String), bad ≠ "" → jsNumber bad = none →
        computeSeconds tparts (some bad) = none)
    ∧ parseTimeToSeconds "00:01:05,500" = some (131 / 2)
    ∧ parseTimeToSeconds "00:01:05" = some 65 := by
  refine ⟨parseTimeToSeconds_unfolded,
    fun tparts msPart h m s mv h0 h1 h2 h3 =>
      computeSeconds_formula tparts msPart h m s mv h0 h1 h2 h3,
    rfl, fun tparts bad hne hbad => computeSeconds_nan_ms tparts bad hne hbad, ?_, ?_⟩
  · rw [parseTimeToSeconds_unfolded,
      show jsSplit ',' "00:01:05,500" = ["00:01:05", "500"] from by decide]
    rw [computeSeconds_formula (jsSplit ':' (["00:01:05", "500"].headD ""))
      (["00:01:05", "500"].get? 1) 0 1 5 500 (by decide) (by decide) (by decide)
      (by decide)]
    norm_num
  · rw [parseTimeToSeconds_unfolded,
      show jsSplit ',' "00:01:05" = ["00:01:05"] from by decide]
    rw [computeSeconds_formula (jsSplit ':' (["00:01:05"].headD ""))
      (["00:01:05"].get? 1) 0 1 5 0 (by decide) (by decide) (by decide) (by decide)]
    norm_num

/-- C6, witness: the formula part of `parseTime_formula` applied to the
four concrete segments of `"00:01:05,500"`. -/
theorem parseTime_formula_witness :
    computeSeconds ["00", "01", "05"] (some "500") =
      some ((0 : ℚ) * 3600 + 1 * 60 + 5 + 500 / 1000) :=
  parseTime_formula.2.1 ["00", "01", "05"] (some "500") 0 1 5 500
    (by decide) (by decide) (by decide) (by decide)

/-- Boolean match predicate of the subtitle effect agrees with the
specification's interval-containment notion. -/
lemma subtitleMatches_iff (t : ℚ) (sub : ProcessedSubtitle) :
    subtitleMatches t sub = true ↔ lineContains t sub := by
  rcases sub with ⟨sq, tx, st, sp, _ | a, _ | b⟩ <;>
    simp [subtitleMatches, lineContains]

/-- The characterisation of `List.find?` on the first index whose element
satisfies the predicate. -/
lemma find?_eq_get_first {α : Type} (p : α → Bool) :
    ∀ (l : List α) (i : Nat) (hi : i < l.length),
      p (l.get ⟨i, hi⟩) = true →
      (∀ j (hj : j < l.length), j < i → p (l.get ⟨j, hj⟩) = false) →
      l.find? p = some (l.get ⟨i, hi⟩)
  | [], i, hi, _, _ => absurd hi (by simp)
  | x :: xs, 0, _, hp, _ => by
      simpa using List.find?_cons_of_pos xs (by simpa using hp)
  | x :: xs, i + 1, hi, hp, hmin => by
      have hx : p x = false := hmin 0 (by simp) (Nat.succ_pos i)
      have ih := find?_eq_get_first p xs i (by simpa using hi) (by simpa using hp)
        (fun j hj hji => by
          simpa using hmin (j + 1) (by simpa using hj) (Nat.succ_lt_succ hji))
      rw [List.find?_cons_of_neg xs (by simp [hx])]
      simpa using ih

/-- C5.  The displayed subtitle is a pure function of the time and the
line list: it is the empty string when no line's closed interval contains
the time (in particular on the empty list), and the text of the first
line whose `[startSeconds, endSeconds]` interval contains the time,
inclusively at both endpoints, otherwise. -/
theorem subtitle_selection_first_match (t : ℚ) (subs : List ProcessedSubtitle) :
    ((∀ sub ∈ subs, ¬ lineContains t sub) → currentSubtitleFor t subs = "")
    ∧ (∀ i (hi : i < subs.length), lineContains t (subs.get ⟨i, hi⟩) →
        (∀ j (hj : j < subs.length), j < i → ¬ lineContains t (subs.get ⟨j, hj⟩)) →
        currentSubtitleFor t subs = (subs.get ⟨i, hi⟩).text) := by
  constructor
  · intro hnone
    unfold currentSubtitleFor
    split
    · rfl
    · have hfind : subs.find? (fun sub => subtitleMatches t sub) = none := by
        rw [List.find?_eq_none]
        intro x hx
        simp only [Bool.not_eq_true]
        cases hM : subtitleMatches t x with
        | false => rfl
        | true => exact absurd ((subtitleMatches_iff t x).mp hM) (hnone x hx)
      rw [hfind]
  · intro i hi hcont hmin
    have hne : subs.length ≠ 0 := by
      intro h
      rw [h] at hi
      exact absurd hi (by simp)
    have hminb : ∀ j (hj : j < subs.length), j < i →
        (fun sub => subtitleMatches t sub) (subs.get ⟨j, hj⟩) = false := by
      intro j hj hji
      cases hM : subtitleMatches t (subs.get ⟨j, hj⟩) with
      | false => exact hM
      | true => exact absurd ((subtitleMatches_iff t _).mp hM) (hmin j hj hji)
    unfold currentSubtitleFor
    rw [if_neg hne, find?_eq_get_first _ subs i hi
      (by simpa using (subtitleMatches_iff t _).mpr hcont) hminb]

/-- C5, witness: at time 2 the second line of a two-line list is the
first whose interval contains the time. -/
theorem subtitle_selection_first_match_witness :
    currentSubtitleFor 2
      [⟨1, "a", "", "", some 0, some 1⟩, ⟨2, "b", "", "", some 2, some 3⟩] = "b" := by
  have h := (subtitle_selection_first_match 2
    [⟨1, "a", "", "", some 0, some 1⟩, ⟨2, "b", "", "", some 2, some 3⟩]).2 1
    (by decide) ⟨2, 3, rfl, rfl, by norm_num, by norm_num⟩
    (fun j hj hji => by
      interval_cases j
      rintro ⟨a, b, ha, hb, h1, h2⟩
      simp only [List.get] at ha hb
      injection ha with ha
      injection hb with hb
      subst ha
      subst hb
      norm_num at h1 h2)
  simpa using h

/-- The `findIndex` model returns the first index whose element satisfies
the predicate. -/
lemma jsFindIndex_eq_of_first {α : Type} (p : α → Bool) :
    ∀ (l : List α) (i : Nat) (hi : i < l.length),
      p (l.get ⟨i, hi⟩) = true →
      (∀ j (hj : j < l.length), j < i → p (l.get ⟨j, hj⟩) = false) →
      jsFindIndex p l = i
  | [], i, hi, _, _ => absurd hi (by simp)
  | x :: xs, 0, _, hp, _ => by
      have hx : p x = true := by simpa using hp
      simp [jsFindIndex, hx]
  | x :: xs, i + 1, hi, hp, hmin => by
      have hx : p x = false := hmin 0 (by simp) (Nat.succ_pos i)
      have ih := jsFindIndex_eq_of_first p xs i (by simpa using hi)
        (by simpa using hp)
        (fun j hj hji => by
          simpa using hmin (j + 1) (by simpa using hj) (Nat.succ_lt_succ hji))
      have hne : ((i : Int)) ≠ -1 := by omega
      simp [jsFindIndex, hx, ih, hne]

/-- The `findIndex` model returns `-1` when no element satisfies the
predicate. -/
lemma jsFindIndex_eq_neg_one {α : Type} (p : α → Bool) :
    ∀ (l : List α), (∀ x ∈ l, p x = false) → jsFindIndex p l = -1
  | [], _ => rfl
  | x :: xs, h => by
      have hx : p x = false := h x (by simp)
      have ih := jsFindIndex_eq_neg_one p xs (fun y hy => h y (by simp [hy]))
      simp [jsFindIndex, hx, ih]

/-- The quality-list recompute never touches the selectable list. -/
lemma updateQualityListWith_avail (idx : Int) (w : World) :
    (updateQualityListWith idx w).state.availableQualities =
      w.state.availableQualities := by
  unfold updateQualityListWith
  repeat (first | rfl | split)
  all_goals (try dsimp only)
  all_goals (repeat (first | rfl | split))

/-- C2.  On the stream-initialized event the selectable list is rebuilt
as the concatenation of per-item contributions, and each contribution is:
for an item carrying a (truthy) id and a codec string whose numeric id
first matches the engine representation at position `i`, the entry
`⟨i, label, id, needLogin := false⟩`; for a codec-less item with an
unauthenticated viewer and id below 112, the login-gated entry
`⟨id, label, id, needLogin := true⟩`; nothing for a codec-less item with
id at or above 112, and nothing for any item when the viewer is
authenticated and no representation matches. -/
theorem streamInit_quality_reconciliation
    (loggedIn : Bool) (reps : List Representation) (item : FormatItem) :
    (∀ (w : World) (eng : Engine), w.player = some eng →
      (streamInitializedHandler w).state.availableQualities =
        buildQualities w.state.isLoggedIn eng.videoReps w.formatListRef)
    ∧ (∀ (pre post : List FormatItem),
        buildQualities loggedIn reps (pre ++ item :: post) =
          buildQualities loggedIn reps pre ++
            qualityContribution loggedIn reps item ++
              buildQualities loggedIn reps post)
    ∧ (∀ i (hi : i < reps.length), item.id ≠ 0 → truthyStr item.codecs = true →
        jsNumber (reps.get ⟨i, hi⟩).id = some (item.id : ℚ) →
        (∀ j (hj : j < reps.length), j < i →
          jsNumber (reps.get ⟨j, hj⟩).id ≠ some (item.id : ℚ)) →
        qualityContribution loggedIn reps item =
          [⟨(i : Int), item.new_description, item.id, false⟩])
    ∧ (truthyStr item.codecs = false → loggedIn = false → item.id < 112 →
        qualityContribution loggedIn reps item =
          [⟨item.id, item.new_description, item.id, true⟩])
    ∧ (truthyStr item.codecs = false → 112 ≤ item.id →
        qualityContribution loggedIn reps item = [])
    ∧ (loggedIn = true → (∀ r ∈ reps, jsNumber r.id ≠ some (item.id : ℚ)) →
        qualityContribution loggedIn reps item = []) := by
  refine ⟨?_, ?_, ?_, ?_, ?_, ?_⟩
  · intro w eng hp
    unfold streamInitializedHandler updateQualityList
    rw [updateQualityListWith_avail]
    simp [hp]
  · intro pre post
    induction pre with
    | nil => simp [buildQualities]
    | cons a l ih => simp [buildQualities, ih]
  · intro i hi hid hcodec hmatch hmin
    unfold qualityContribution
    rw [if_pos ⟨hid, hcodec⟩]
    have hidx : jsFindIndex
        (fun rep => decide (jsNumber rep.id = some (item.id : ℚ))) reps = i :=
      jsFindIndex_eq_of_first _ reps i hi (by simpa using hmatch)
        (fun j hj hji => by simpa using hmin j hj hji)
    rw [hidx]
    have : ((i : Int)) ≠ -1 := by omega
    simp [this]
  · intro hcodec hlog hlt
    unfold qualityContribution
    rw [if_neg (by simp [hcodec]), if_pos ⟨hlog, hlt⟩]
  · intro hcodec hge
    unfold qualityContribution
    rw [if_neg (by simp [hcodec]), if_neg (by omega)]
  · intro hlog hnone
    unfold qualityContribution
    by_cases hfirst : item.id ≠ 0 ∧ truthyStr item.codecs = true
    · rw [if_pos hfirst]
      have hidx : jsFindIndex
          (fun rep => decide (jsNumber rep.id = some (item.id : ℚ))) reps = -1 :=
        jsFindIndex_eq_neg_one _ reps (fun r hr => by simpa using hnone r hr)
      rw [hidx]
      simp
    · rw [if_neg hfirst, if_neg (by simp [hlog])]

/-- C2, witness: the three concrete scenarios of the specification
(id 5 with codec matching the representation at position 2; id 50,
codec-less, unauthenticated; id 150, codec-less, unauthenticated). -/
theorem streamInit_quality_reconciliation_witness :
    qualityContribution false [⟨"16", 0⟩, ⟨"32", 1⟩, ⟨"5", 2⟩]
        ⟨5, "720P", none, some "avc1"⟩ = [⟨2, "720P", 5, false⟩]
    ∧ qualityContribution false [⟨"16", 0⟩, ⟨"32", 1⟩, ⟨"5", 2⟩]
        ⟨50, "1080P", none, none⟩ = [⟨50, "1080P", 50, true⟩]
    ∧ qualityContribution false [⟨"16", 0⟩, ⟨"32", 1⟩, ⟨"5", 2⟩]
        ⟨150, "8K", none, none⟩ = [] := by
  refine ⟨?_, ?_, ?_⟩
  · exact (streamInit_quality_reconciliation false
      [⟨"16", 0⟩, ⟨"32", 1⟩, ⟨"5", 2⟩] ⟨5, "720P", none, some "avc1"⟩).2.2.1 2
      (by decide) (by decide) (by decide) (by decide) (by decide)
  · exact (streamInit_quality_reconciliation false
      [⟨"16", 0⟩, ⟨"32", 1⟩, ⟨"5", 2⟩] ⟨50, "1080P", none, none⟩).2.2.2.1
      (by decide) (by decide) (by decide)
  · exact (streamInit_quality_reconciliation false
      [⟨"16", 0⟩, ⟨"32", 1⟩, ⟨"5", 2⟩] ⟨150, "8K", none, none⟩).2.2.2.2.1
      (by decide) (by decide)

/-- Searching again by the id of the first match of an id-determined
predicate returns that same first match. -/
lemma find?_by_id_of_find? (p : FormatItem → Bool)
    (hcong : ∀ x y : FormatItem, x.id = y.id → p x = p y) :
    ∀ (fl : List FormatItem) (item : FormatItem), fl.find? p = some item →
      fl.find? (fun i => decide (i.id = item.id)) = some item
  | [], item, h => by simp [List.find?] at h
  | f :: rest, item, h => by
      cases hpf : p f with
      | true =>
          rw [List.find?_cons_of_pos _ hpf] at h
          injection h with h
          subst h
          exact List.find?_cons_of_pos _ (by simp)
      | false =>
          rw [List.find?_cons_of_neg _ (by simp [hpf])] at h
          have hpitem : p item = true := List.find?_some h
          have hne : f.id ≠ item.id := by
            intro he
            rw [hcong f item he, hpitem] at hpf
            exact Bool.noConfusion hpf
          rw [List.find?_cons_of_neg _ (by simp [hne])]
          exact find?_by_id_of_find? p hcong rest item h

/-- C4, counterexample.  The claim says that whenever the recompute runs
with no explicit quality selected and the engine has no current video
representation, the sub-label is reset to empty; but when the engine's
representation list is empty the code returns before the reset, leaving a
stale sub-label in place. -/
theorem updateQualityList_empty_reps_counterexample :
    (updateQualityList
      { player := some { videoReps := [], currentRep := none },
        state := { currentQualityIndex := -1,
                   currentAutoQuality := "1080P" } }).state.currentAutoQuality
      = "1080P" ∧ "1080P" ≠ "" := by
  constructor
  · rfl
  · decide

/-- C4, amended.  Provided the engine's video representation list is
nonempty (when it is empty the recompute leaves the state untouched) and
no explicit quality is selected: a missing current representation resets
the quality label to the default automatic label with an empty sub-label;
otherwise the first format item whose id equals the representation's
numeric id, when present and carrying a non-empty display label, supplies
the sub-label under the generic automatic indicator, and when absent the
labels are reset. -/
theorem updateQualityList_auto_label (w : World) (eng : Engine)
    (hp : w.player = some eng) (hidx : w.state.currentQualityIndex = -1)
    (hreps : eng.videoReps ≠ []) :
    (eng.currentRep = none →
      updateQualityList w =
        { w with state :=
          { w.state with currentQuality := "自动", currentAutoQuality := "" } })
    ∧ (∀ rep, eng.currentRep = some rep →
        ((w.formatListRef.find?
            (fun quality => decide (jsNumber rep.id = some (quality.id : ℚ))) = none →
          updateQualityList w =
            { w with state :=
              { w.state with currentQuality := "自动", currentAutoQuality := "" } })
        ∧ (∀ item, w.formatListRef.find?
              (fun quality => decide (jsNumber rep.id = some (quality.id : ℚ)))
                = some item →
            ∀ d, item.display_desc = some d → d ≠ "" →
              (updateQualityList w).state.currentAutoQuality = d ∧
                (updateQualityList w).state.currentQuality = "自动"))) := by
  have hlen : ¬ eng.videoReps.length = 0 := by
    simpa [List.length_eq_zero] using hreps
  have hbase : updateQualityList w = updateQualityListWith (-1) w := by
    rw [updateQualityList, hidx]
  constructor
  · intro hrep
    rw [hbase]
    unfold updateQualityListWith
    simp only [hp, hrep]
    rw [if_neg (by simp), if_neg hlen]
  · intro rep hrep
    constructor
    · intro hfind
      rw [hbase]
      unfold updateQualityListWith
      simp only [hp, hrep, hfind]
      rw [if_neg (by simp), if_neg hlen]
    · intro item hfind d hd hdne
      have hcong : ∀ x y : FormatItem, x.id = y.id →
          (fun quality => decide (jsNumber rep.id = some (quality.id : ℚ))) x =
            (fun quality => decide (jsNumber rep.id = some (quality.id : ℚ))) y := by
        intro x y he
        simp only [he]
      have hfind2 := find?_by_id_of_find? _ hcong w.formatListRef item hfind
      rw [hbase]
      unfold updateQualityListWith
      simp only [hp, hrep, hfind, hfind2, Option.some_bind, hd]
      rw [if_neg (by simp), if_neg hlen]
      rw [if_neg hdne]
      exact ⟨rfl, rfl⟩

/-- C4, witness: a current representation with id `"32"` matched by a
format item carrying display label `"流畅 480P"` supplies the
sub-label. -/
theorem updateQualityList_auto_label_witness :
    (updateQualityList
      { player := some { videoReps := [⟨"32", 0⟩], currentRep := some ⟨"32", 0⟩ },
        formatListRef := [⟨32, "480P", some "流畅 480P", some "avc1"⟩],
        state := { currentQualityIndex := -1 } }).state.currentAutoQuality
        = "流畅 480P"
    ∧ (updateQualityList
      { player := some { videoReps := [⟨"32", 0⟩], currentRep := some ⟨"32", 0⟩ },
        formatListRef := [⟨32, "480P", some "流畅 480P", some "avc1"⟩],
        state := { currentQualityIndex := -1 } }).state.currentQuality = "自动" :=
  (updateQualityList_auto_label
    { player := some { videoReps := [⟨"32", 0⟩], currentRep := some ⟨"32", 0⟩ },
      formatListRef := [⟨32, "480P", some "流畅 480P", some "avc1"⟩],
      state := { currentQualityIndex := -1 } }
    { videoReps := [⟨"32", 0⟩], currentRep := some ⟨"32", 0⟩ }
    rfl rfl (by decide)).2 ⟨"32", 0⟩ rfl |>.2
    ⟨32, "480P", some "流畅 480P", some "avc1"⟩ (by decide) "流畅 480P" rfl
    (by decide)

/-- The resume block at the end of `changeQuality` only issues a play
call and possibly a warning: state, engine handle, error output and the
element ref are untouched. -/
lemma resumeIfWasPlaying_preserves (b : Bool) (w : World) :
    (resumeIfWasPlaying b w).state = w.state ∧
    (resumeIfWasPlaying b w).player = w.player ∧
    (resumeIfWasPlaying b w).errors = w.errors ∧
    (resumeIfWasPlaying b w).videoElem = w.videoElem := by
  unfold resumeIfWasPlaying
  repeat (first | exact ⟨rfl, rfl, rfl, rfl⟩ | split)

/-- C3.  When the engine throws on an explicit representation switch, the
catch block re-enables automatic bitrate switching, reverts the selection
to automatic (index -1 with the automatic label), clears the transient
switch message (and the message timer firing later leaves it clear), and
reports no error to the host. -/
theorem changeQuality_failure_reverts (w : World) (eng : Engine) (index : Int)
    (target : Quality) (hp : w.player = some eng)
    (hthrow : eng.throwsOnSwitch = true)
    (hq : w.state.availableQualities.length ≠ 0) (hidx : index ≠ -1)
    (hfind : w.state.availableQualities.find?
      (fun q => decide (q.index = index)) = some target) :
    (changeQuality index w).state.currentQualityIndex = -1
    ∧ (changeQuality index w).state.currentQuality = "自动"
    ∧ (changeQuality index w).state.switchMessage = ""
    ∧ (changeQuality index w).player = some { eng with autoSwitchVideo := true }
    ∧ (changeQuality index w).errors = w.errors
    ∧ (fireSwitchMessageClear (changeQuality index w)).state.switchMessage = "" := by
  have hstep : changeQuality index w =
      resumeIfWasPlaying w.state.isPlaying
        { w with
          player := some { eng with autoSwitchVideo := true },
          state := { w.state with
            switchMessage := "",
            currentQualityIndex := -1,
            currentQuality := "自动" } } := by
    unfold changeQuality
    simp only [hp]
    rw [if_neg hq, if_neg hidx]
    simp only [hfind]
    rw [hthrow]
    rfl
  rw [hstep]
  refine ⟨?_, ?_, ?_, ?_, ?_, rfl⟩
  · rw [(resumeIfWasPlaying_preserves _ _).1]
  · rw [(resumeIfWasPlaying_preserves _ _).1]
  · rw [(resumeIfWasPlaying_preserves _ _).1]
  · rw [(resumeIfWasPlaying_preserves _ _).2.1]
  · rw [(resumeIfWasPlaying_preserves _ _).2.2.1]

/-- C3, witness: a concrete failing switch. -/
theorem changeQuality_failure_reverts_witness :
    (changeQuality 0
      { player := some { throwsOnSwitch := true },
        state := { availableQualities :=
          [⟨0, "480P", 32, false⟩] } }).state.currentQualityIndex = -1
    ∧ (changeQuality 0
      { player := some { throwsOnSwitch := true },
        state := { availableQualities :=
          [⟨0, "480P", 32, false⟩] } }).state.currentQuality = "自动"
    ∧ (changeQuality 0
      { player := some { throwsOnSwitch := true },
        state := { availableQualities :=
          [⟨0, "480P", 32, false⟩] } }).state.switchMessage = "" := by
  have h := changeQuality_failure_reverts
    { player := some { throwsOnSwitch := true },
      state := { availableQualities := [⟨0, "480P", 32, false⟩] } }
    { throwsOnSwitch := true } 0 ⟨0, "480P", 32, false⟩
    rfl rfl (by decide) (by decide) (by decide)
  exact ⟨h.1, h.2.1, h.2.2.1⟩

/-- C8.  After a successful explicit switch, playback is resumed exactly
when it was active before the switch began (and the video element is
mounted); a rejected resume only logs a warning, leaving the switched
state and the error output untouched. -/
theorem changeQuality_resumes_playback (w : World) (eng : Engine) (index : Int)
    (target : Quality) (el : VideoElem)
    (hp : w.player = some eng) (hnothrow : eng.throwsOnSwitch = false)
    (hq : w.state.availableQualities.length ≠ 0) (hidx : index ≠ -1)
    (hfind : w.state.availableQualities.find?
      (fun q => decide (q.index = index)) = some target)
    (hel : w.videoElem = some el) :
    (w.state.isPlaying = true →
      (changeQuality index w).playCalls = w.playCalls + 1
      ∧ (changeQuality index w).state.currentQualityIndex = index
      ∧ (changeQuality index w).state.currentQuality = target.label
      ∧ (changeQuality index w).errors = w.errors
      ∧ (el.playRejects = true →
          (changeQuality index w).warnCount = w.warnCount + 1))
    ∧ (w.state.isPlaying = false →
      (changeQuality index w).playCalls = w.playCalls) := by
  have hstep : changeQuality index w =
      resumeIfWasPlaying w.state.isPlaying
        { w with
          player := some { eng with autoSwitchVideo := false },
          state := { w.state with
            switchMessage := "正在切换到 " ++ target.label ++ ", 请稍等...",
            currentQualityIndex := index,
            currentQuality := target.label,
            currentAutoQuality := "" } } := by
    unfold changeQuality
    simp only [hp]
    rw [if_neg hq, if_neg hidx]
    simp only [hfind]
    rw [hnothrow]
    rfl
  constructor
  · intro hplay
    rw [hstep, hplay]
    cases hpr : el.playRejects with
    | true =>
        refine ⟨?_, ?_, ?_, ?_, fun _ => ?_⟩ <;>
          simp [resumeIfWasPlaying, hel, hpr]
    | false =>
        refine ⟨?_, ?_, ?_, ?_, fun hcontra => ?_⟩
        · simp [resumeIfWasPlaying, hel, hpr]
        · simp [resumeIfWasPlaying, hel, hpr]
        · simp [resumeIfWasPlaying, hel, hpr]
        · simp [resumeIfWasPlaying, hel, hpr]
        · exact Bool.noConfusion hcontra
  · intro hstop
    rw [hstep, hstop]
    simp [resumeIfWasPlaying]

/-- C8, witness: a concrete successful switch resuming playback. -/
theorem changeQuality_resumes_playback_witness :
    (changeQuality 0
      { player := some {},
        videoElem := some {},
        state := { availableQualities := [⟨0, "480P", 32, false⟩],
                   isPlaying := true } }).playCalls = 1 := by
  have h := (changeQuality_resumes_playback
    { player := some {},
      videoElem := some {},
      state := { availableQualities := [⟨0, "480P", 32, false⟩],
                 isPlaying := true } }
    {} 0 ⟨0, "480P", 32, false⟩ {}
    rfl rfl (by decide) (by decide) (by decide) rfl).1 rfl
  exact h.1

/-- C7.  `updateSrc` reports failures through the error callback and
never by throwing: with no engine and no render element both the
element-missing and the player-missing errors are reported; an empty
source URI is reported whether the engine already exists or is created
lazily; in every error case nothing is attached and the playback state,
the attach log and the live blob set are unchanged. -/
theorem updateSrc_error_reporting (fresh : Engine) (ns : Source) (w : World) :
    (w.player = none → w.videoElem = none →
      (updateSrc fresh ns w).errors =
        w.errors ++ ["视频元素未初始化", "播放器未初始化"]
      ∧ (updateSrc fresh ns w).attached = w.attached
      ∧ (updateSrc fresh ns w).state = w.state
      ∧ (updateSrc fresh ns w).player = none
      ∧ (updateSrc fresh ns w).liveBlobs = w.liveBlobs)
    ∧ (∀ eng, w.player = some eng → ns.src = "" →
      updateSrc fresh ns w = { w with errors := w.errors ++ ["视频源地址不能为空"] })
    ∧ (∀ el, w.player = none → w.videoElem = some el → ns.src = "" →
      (updateSrc fresh ns w).errors = w.errors ++ ["视频源地址不能为空"]
      ∧ (updateSrc fresh ns w).attached = w.attached
      ∧ (updateSrc fresh ns w).state = w.state
      ∧ (updateSrc fresh ns w).liveBlobs = w.liveBlobs) := by
  refine ⟨?_, ?_, ?_⟩
  · intro hpl hel
    have hred : updateSrc fresh ns w =
        { w with errors := (w.errors ++ ["视频元素未初始化"]) ++ ["播放器未初始化"] } := by
      unfold updateSrc initPlayer
      simp only [hpl, hel, Option.isNone_none, if_true]
    rw [hred]
    refine ⟨by simp, rfl, rfl, ?_, rfl⟩
    rw [show ({ w with errors := (w.errors ++ ["视频元素未初始化"]) ++
      ["播放器未初始化"] } : World).player = w.player from rfl, hpl]
  · intro eng hpl hsrc
    unfold updateSrc
    rw [show (if w.player.isNone = true then initPlayer fresh w else w) = w from by
      simp [hpl]]
    simp only [hpl]
    rw [hsrc, if_pos rfl]
  · intro el hpl hel hsrc
    have hini : initPlayer fresh w =
        { w with
          player := some { fresh with autoSwitchVideo := true, autoSwitchAudio := true },
          initializedWith := w.initializedWith ++ [w.optionsSrc],
          loadedCount := w.loadedCount + 1 } := by
      unfold initPlayer
      simp only [hel]
      rw [show (if w.player.isSome = true then destroyPlayer w else w) = w from by
        simp [hpl]]
      rw [hel]
    unfold updateSrc
    rw [show (if w.player.isNone = true then initPlayer fresh w else w) =
      initPlayer fresh w from by simp [hpl], hini, hsrc]
    exact ⟨rfl, rfl, rfl, rfl⟩

/-- C7, witness: empty source with an existing engine reports the
empty-source error and changes nothing else. -/
theorem updateSrc_error_reporting_witness :
    updateSrc {} ⟨"", "application/dash+xml"⟩ { player := some {} } =
      { (({ player := some {} } : World)) with
        errors := [] ++ ["视频源地址不能为空"] } :=
  (updateSrc_error_reporting {} ⟨"", "application/dash+xml"⟩
    { player := some {} }).2.1 {} rfl rfl

/-- C9.  Tearing down with no engine instance and no held temporary
resource is a total no-op apart from clearing the pending hide-controls
timer: the engine handle stays absent, no error is reported and the live
resource set is unchanged. -/
theorem destroyPlayer_safe_noop (w : World) (hp : w.player = none)
    (hb : w.prevBlobRef = none) :
    destroyPlayer w = { w with hideControlsTimer := none }
    ∧ (destroyPlayer w).errors = w.errors
    ∧ (destroyPlayer w).liveBlobs = w.liveBlobs
    ∧ (destroyPlayer w).player = none := by
  have hred : destroyPlayer w = { w with hideControlsTimer := none } := by
    unfold destroyPlayer revokePreviousBlobUrl
    simp only [hp, hb]
  refine ⟨hred, by rw [hred], by rw [hred], by rw [hred, show ({ w with
    hideControlsTimer := none } : World).player = w.player from rfl, hp]⟩

/-- C9, witness: teardown of the fresh world. -/
theorem destroyPlayer_safe_noop_witness :
    destroyPlayer {} = ({} : World) :=
  (destroyPlayer_safe_noop {} rfl rfl).1

/-- C10.  `toggleMute` while muted with stored volume 0 unmutes and
restores the volume to 0.5 on both state and element; while unmuted it
mutes the element without changing the stored volume; with no video
element it changes nothing. -/
theorem toggleMute_spec (w : World) :
    (∀ el, w.videoElem = some el → w.state.isMuted = true → w.state.volume = 0 →
      (toggleMute w).state.isMuted = false
      ∧ (toggleMute w).state.volume = 1/2
      ∧ (toggleMute w).videoElem = some { el with muted := false, volume := 1/2 })
    ∧ (∀ el, w.videoElem = some el → w.state.isMuted = false →
      (toggleMute w).state.isMuted = true
      ∧ (toggleMute w).state.volume = w.state.volume
      ∧ (toggleMute w).videoElem = some { el with muted := true })
    ∧ (w.videoElem = none → toggleMute w = w) := by
  refine ⟨?_, ?_, ?_⟩
  · intro el hel hmut hvol
    simp [toggleMute, hel, hmut, hvol]
  · intro el hel hmut
    simp [toggleMute, hel, hmut]
  · intro hel
    simp [toggleMute, hel]

/-- C10, witness: unmuting with stored volume 0 restores 0.5. -/
theorem toggleMute_spec_witness :
    (toggleMute
      { videoElem := some { muted := true },
        state := { isMuted := true, volume := 0 } }).state.volume = 1/2 := by
  have h := (toggleMute_spec
    { videoElem := some { muted := true },
      state := { isMuted := true, volume := 0 } }).1 { muted := true } rfl rfl rfl
  exact h.2.1

/-- C1.  Concrete run refuting the one-outstanding-blob invariant: on a
fresh player with a mounted render element, two successful manifest
fetches (two sequential source updates) leave both created object URLs
live, because `previousBlobUrl` is never assigned and the revoke helper
therefore never revokes anything.  The specification's intended behaviour
is that the first URL is released no later than the creation of the
second, leaving exactly one. -/
theorem two_source_updates_leak_two_blobs :
    (sourceUpdate {} ⟨"mpd2", []⟩
        (sourceUpdate {} ⟨"mpd1", []⟩ { videoElem := some {} })).liveBlobs.length = 2
    ∧ (sourceUpdate {} ⟨"mpd2", []⟩
        (sourceUpdate {} ⟨"mpd1", []⟩
          { videoElem := some {} })).prevBlobRef = none := by
  constructor
  · rfl
  · rfl

end VideoPlayer
